import Mathlib

/-!
Verification of the silence-detection recording engine in
`scripts/record-audio.py` (function `record_audio_with_silence_detection`
and the `__main__` entry point).

The Python code is shallowly embedded: amplitudes and thresholds are
rationals (Python floats are used by the source only on values where the
arithmetic is exact), counters are naturals, the chunk limits are integers
obtained by Python's truncating `int()` conversion, and the blocking
`stream.read` loop becomes a recursion over a list of chunks (`none`
meaning the run would block waiting for more input).
-/

namespace VoiceAssistant

/-- One audio chunk: the signed 16-bit samples obtained by one `stream.read`. -/
abbrev Chunk := List ℤ

/-- `RATE = 16000`. -/
def RATE : ℕ := 16000

/-- `CHUNK = 1024` samples per buffer, a hard-coded constant of the source. -/
def CHUNK : ℕ := 1024

/-- `DEFAULT_MAX_DURATION = 30`. -/
def DEFAULT_MAX_DURATION : ℚ := 30

/-- `DEFAULT_SILENCE_THRESHOLD = 800`. -/
def DEFAULT_SILENCE_THRESHOLD : ℚ := 800

/-- `DEFAULT_MAX_SILENCE = 3.0`. -/
def DEFAULT_MAX_SILENCE : ℚ := 3

/-- Python's `int()` applied to a rational: truncation toward zero. -/
def pyInt (q : ℚ) : ℤ := if 0 ≤ q then ⌊q⌋ else ⌈q⌉

/-- The configurable parameters of `record_audio_with_silence_detection`
(the output file name plays no role in the detection engine). -/
structure Config where
  max_duration_seconds : ℚ
  silence_threshold : ℚ
  max_silence_seconds : ℚ

/-- The configuration used when the script is run with no optional arguments. -/
def defaultConfig : Config :=
  ⟨DEFAULT_MAX_DURATION, DEFAULT_SILENCE_THRESHOLD, DEFAULT_MAX_SILENCE⟩

/-- `max_silence_chunks = int(max_silence_seconds * RATE / CHUNK)`. -/
def maxSilenceChunks (cfg : Config) : ℤ :=
  pyInt (cfg.max_silence_seconds * (RATE : ℚ) / (CHUNK : ℚ))

/-- `max_total_chunks = int(max_duration_seconds * RATE / CHUNK)`. -/
def maxTotalChunks (cfg : Config) : ℤ :=
  pyInt (cfg.max_duration_seconds * (RATE : ℚ) / (CHUNK : ℚ))

/-- `max_waiting_chunks = int(5.0 * RATE / CHUNK)`: the hard-coded
five-second wait-for-speech limit. -/
def maxWaitingChunks : ℤ := pyInt (5 * (RATE : ℚ) / (CHUNK : ℚ))

/-- `calibration_chunks = 8`, a hard-coded constant of the source. -/
def calibration_chunks : ℕ := 8

/-- `amplitude = sum(abs(x) for x in audio_data) / len(audio_data)`. -/
def amplitude (c : Chunk) : ℚ :=
  (((c.map fun s => s.natAbs).sum : ℕ) : ℚ) / (c.length : ℚ)

/-- The activity classifier: `current_amplitude > silence_threshold`. -/
def isVoiced (c : Chunk) (threshold : ℚ) : Bool :=
  decide (threshold < amplitude c)

/-- The three ways the recording loop can stop: the `has_spoken`
silence break, the no-speech waiting break, and the `while` condition
`total_chunks < max_total_chunks` becoming false. -/
inductive RecOutcome where
  | completed
  | timedOutNoSpeech
  | timedOutMaxDuration
deriving DecidableEq, Repr

/-- The mutable locals of `record_audio_with_silence_detection`. -/
structure RecState where
  frames : List Chunk
  silence_chunks : ℕ
  total_chunks : ℕ
  has_spoken : Bool
  waiting_for_speech_chunks : ℕ
  calibration_samples : List ℚ
  is_calibrating : Bool
  silence_threshold : ℚ
deriving DecidableEq

/-- The locals' initial values at the top of the function body. -/
def initState (cfg : Config) : RecState :=
  ⟨[], 0, 0, false, 0, [], true, cfg.silence_threshold⟩

/-- One iteration of the `while` loop body, after the `stream.read`:
increments `total_chunks`, runs calibration or classification, appends the
chunk to `frames` when listening, then evaluates the two `break` checks.
Returns the updated locals and the break taken, if any. -/
def procChunk (cfg : Config) (st : RecState) (data : Chunk) :
    RecState × Option RecOutcome :=
  let st1 : RecState := { st with total_chunks := st.total_chunks + 1 }
  if st1.is_calibrating then
    if st1.total_chunks ≤ 3 then (st1, none)
    else
      let samples := st1.calibration_samples ++ [amplitude data]
      if calibration_chunks - 3 ≤ samples.length then
        let avg := samples.sum / (samples.length : ℚ)
        ({ st1 with
            calibration_samples := samples,
            silence_threshold := min (max (avg * 2) st1.silence_threshold) 1200,
            is_calibrating := false }, none)
      else ({ st1 with calibration_samples := samples }, none)
  else
    let st2 : RecState :=
      if isVoiced data st1.silence_threshold then
        { st1 with has_spoken := true, silence_chunks := 0,
                   waiting_for_speech_chunks := 0 }
      else
        { st1 with
            silence_chunks := st1.silence_chunks + 1,
            waiting_for_speech_chunks :=
              if st1.has_spoken then st1.waiting_for_speech_chunks
              else st1.waiting_for_speech_chunks + 1 }
    let st3 : RecState := { st2 with frames := st2.frames ++ [data] }
    if st3.has_spoken = false ∧ maxWaitingChunks ≤ (st3.waiting_for_speech_chunks : ℤ) then
      (st3, some RecOutcome.timedOutNoSpeech)
    else if st3.has_spoken = true ∧ maxSilenceChunks cfg ≤ (st3.silence_chunks : ℤ) then
      (st3, some RecOutcome.completed)
    else (st3, none)

/-- The `while total_chunks < max_total_chunks` loop over a stream of
chunks.  `none` means the loop would block on `stream.read` with no more
input available; otherwise it returns the stop reason and the `frames`
accumulated at the moment the loop stopped. -/
def runRec (cfg : Config) (st : RecState) : List Chunk → Option (RecOutcome × List Chunk)
  | [] =>
    if maxTotalChunks cfg ≤ (st.total_chunks : ℤ) then
      some (RecOutcome.timedOutMaxDuration, st.frames)
    else none
  | d :: rest =>
    if maxTotalChunks cfg ≤ (st.total_chunks : ℤ) then
      some (RecOutcome.timedOutMaxDuration, st.frames)
    else
      match procChunk cfg st d with
      | (st', some out) => some (out, st'.frames)
      | (st', none) => runRec cfg st' rest

/-- Iterating the loop body over a list of chunks, ignoring breaks:
used to speak about the state reached after a given number of chunks. -/
def procList (cfg : Config) (st : RecState) (chunks : List Chunk) : RecState :=
  chunks.foldl (fun s c => (procChunk cfg s c).1) st

/-- The threshold derived on the chunk that completes calibration:
`min(max(avg * 2.0, silence_threshold), 1200)` where `avg` is the mean of
the measured per-chunk amplitudes. -/
def calibratedThreshold (cfg : Config) (measured : List ℚ) : ℚ :=
  min (max (measured.sum / (measured.length : ℚ) * 2) cfg.silence_threshold) 1200

/-- The locals right after calibration completes on chunk 8, with
`measured` the amplitudes of chunks 4 through 8. -/
def postCalibState (cfg : Config) (measured : List ℚ) : RecState :=
  ⟨[], 0, 8, false, 0, measured, false, calibratedThreshold cfg measured⟩

/-- The `__main__` exit status on the exception-free path:
`success = record_audio_with_silence_detection(...)` is `True` whenever
the loop finishes, and `sys.exit(0 if success else 1)` then exits 0.
There is no configuration validation of any kind beforehand. -/
def mainExitCode (cfg : Config) (stream : List Chunk) : Option ℕ :=
  (runRec cfg (initState cfg) stream).map (fun _ => 0)

/-- The result of one `stream.read` call: a chunk, or a raised exception. -/
inductive ReadResult where
  | chunk (data : Chunk) : ReadResult
  | err : ReadResult
deriving DecidableEq

/-- The recording loop over a stream of fallible reads: a raised
exception aborts the loop immediately and propagates to the `except`
handler of `record_audio_with_silence_detection` (the `Except.error`
result), skipping the WAV-writing code entirely. -/
def runRecE (cfg : Config) (st : RecState) :
    List ReadResult → Option (Except Unit (RecOutcome × List Chunk))
  | [] =>
    if maxTotalChunks cfg ≤ (st.total_chunks : ℤ) then
      some (Except.ok (RecOutcome.timedOutMaxDuration, st.frames))
    else none
  | ReadResult.err :: _ =>
    if maxTotalChunks cfg ≤ (st.total_chunks : ℤ) then
      some (Except.ok (RecOutcome.timedOutMaxDuration, st.frames))
    else some (Except.error ())
  | ReadResult.chunk d :: rest =>
    if maxTotalChunks cfg ≤ (st.total_chunks : ℤ) then
      some (Except.ok (RecOutcome.timedOutMaxDuration, st.frames))
    else
      match procChunk cfg st d with
      | (st', some out) => some (Except.ok (out, st'.frames))
      | (st', none) => runRecE cfg st' rest

/-- `__main__` over fallible reads, as the pair (exit code, WAV written):
a normal loop exit reaches the `wave.open` block, writes the file and
exits 0; an exception jumps to the `except` handler, returns `False`, the
file is never written and the process exits 1. -/
def mainE (cfg : Config) (stream : List ReadResult) : Option (ℕ × Bool) :=
  (runRecE cfg (initState cfg) stream).map
    (fun r => match r with
      | Except.ok _ => (0, true)
      | Except.error _ => (1, false))

/-- `int(5.0 * 16000 / 1024) = int(78.125) = 78`. -/
lemma maxWaitingChunks_eq : maxWaitingChunks = 78 := by
  norm_num [maxWaitingChunks, pyInt, RATE, CHUNK]

/-- `int(3.0 * 16000 / 1024) = int(46.875) = 46` for the default configuration. -/
lemma maxSilenceChunks_default : maxSilenceChunks defaultConfig = 46 := by
  norm_num [maxSilenceChunks, pyInt, RATE, CHUNK, defaultConfig, DEFAULT_MAX_SILENCE]

/-- `int(30 * 16000 / 1024) = int(468.75) = 468` for the default configuration. -/
lemma maxTotalChunks_default : maxTotalChunks defaultConfig = 468 := by
  norm_num [maxTotalChunks, pyInt, RATE, CHUNK, defaultConfig, DEFAULT_MAX_DURATION]

/-- The mean absolute amplitude of a constant chunk is the absolute value
of the constant. -/
lemma amplitude_replicate (n : ℕ) (hn : n ≠ 0) (v : ℤ) :
    amplitude (List.replicate n v) = ((v.natAbs : ℕ) : ℚ) := by
  simp only [amplitude, List.map_replicate, List.sum_replicate,
    List.length_replicate, smul_eq_mul]
  push_cast
  field_simp

/-- The loop stops with `timedOutMaxDuration` as soon as the `while`
condition `total_chunks < max_total_chunks` fails. -/
lemma runRec_stop (cfg : Config) (st : RecState) (stream : List Chunk)
    (h : maxTotalChunks cfg ≤ (st.total_chunks : ℤ)) :
    runRec cfg st stream = some (RecOutcome.timedOutMaxDuration, st.frames) := by
  cases stream <;> simp [runRec, h]

/-- A loop iteration that hits no `break` continues with the updated locals. -/
lemma runRec_cons_continue (cfg : Config) (st st' : RecState) (d : Chunk)
    (rest : List Chunk) (h : ¬ maxTotalChunks cfg ≤ (st.total_chunks : ℤ))
    (hp : procChunk cfg st d = (st', none)) :
    runRec cfg st (d :: rest) = runRec cfg st' rest := by
  simp [runRec, h, hp]

/-- A loop iteration that hits a `break` stops with that reason and the
frames accumulated so far. -/
lemma runRec_cons_break (cfg : Config) (st st' : RecState) (d : Chunk)
    (rest : List Chunk) (out : RecOutcome)
    (h : ¬ maxTotalChunks cfg ≤ (st.total_chunks : ℤ))
    (hp : procChunk cfg st d = (st', some out)) :
    runRec cfg st (d :: rest) = some (out, st'.frames) := by
  simp [runRec, h, hp]

/-- Iterating the loop body over the first `8 = calibration_chunks` chunks
from the initial state lands exactly in `postCalibState`: chunks 1-3 are
skipped, chunks 4-8 are measured, and the threshold is derived on chunk 8. -/
lemma procList_calib8 (cfg : Config) (c1 c2 c3 c4 c5 c6 c7 c8 : Chunk) :
    procList cfg (initState cfg) [c1, c2, c3, c4, c5, c6, c7, c8] =
      postCalibState cfg
        [amplitude c4, amplitude c5, amplitude c6, amplitude c7, amplitude c8] := by
  simp only [procList, List.foldl_cons, List.foldl_nil]
  simp [procChunk, initState, postCalibState, calibratedThreshold, calibration_chunks]

/-- Processing one silent chunk before any speech: the chunk is appended,
`waiting_for_speech_chunks` and `silence_chunks` grow, and the loop breaks
with `timedOutNoSpeech` exactly when the waiting limit is hit. -/
lemma runRec_silent_noSpeech_step (cfg : Config) (st : RecState) (d : Chunk)
    (rest : List Chunk) (hc : st.is_calibrating = false)
    (hs : st.has_spoken = false) (hv : isVoiced d st.silence_threshold = false)
    (htop : ¬ maxTotalChunks cfg ≤ (st.total_chunks : ℤ)) :
    runRec cfg st (d :: rest) =
      if maxWaitingChunks ≤ (st.waiting_for_speech_chunks : ℤ) + 1 then
        some (RecOutcome.timedOutNoSpeech, st.frames ++ [d])
      else
        runRec cfg
          ⟨st.frames ++ [d], st.silence_chunks + 1, st.total_chunks + 1, false,
            st.waiting_for_speech_chunks + 1, st.calibration_samples, false,
            st.silence_threshold⟩ rest := by
  obtain ⟨fr, sc, tc, hsp, wc, cal, ic, th⟩ := st
  simp only at hc hs hv htop
  subst hc hs
  by_cases hb : maxWaitingChunks ≤ (wc : ℤ) + 1 <;>
    simp [runRec, htop, procChunk, hv, hb]

/-- Processing one silent chunk after speech has been observed: the chunk
is appended, `silence_chunks` grows, and the loop breaks with `completed`
exactly when the silence limit is hit. -/
lemma runRec_silent_afterSpeech_step (cfg : Config) (st : RecState) (d : Chunk)
    (rest : List Chunk) (hc : st.is_calibrating = false)
    (hs : st.has_spoken = true) (hv : isVoiced d st.silence_threshold = false)
    (htop : ¬ maxTotalChunks cfg ≤ (st.total_chunks : ℤ)) :
    runRec cfg st (d :: rest) =
      if maxSilenceChunks cfg ≤ (st.silence_chunks : ℤ) + 1 then
        some (RecOutcome.completed, st.frames ++ [d])
      else
        runRec cfg
          ⟨st.frames ++ [d], st.silence_chunks + 1, st.total_chunks + 1, true,
            st.waiting_for_speech_chunks, st.calibration_samples, false,
            st.silence_threshold⟩ rest := by
  obtain ⟨fr, sc, tc, hsp, wc, cal, ic, th⟩ := st
  simp only at hc hs hv htop
  subst hc hs
  by_cases hb : maxSilenceChunks cfg ≤ (sc : ℤ) + 1 <;>
    simp [runRec, htop, procChunk, hv, hb]

/-- Processing one voiced chunk: the chunk is appended, `has_spoken` is
set, both silence counters are reset, and (as long as the configured
silence limit is positive) no break fires. -/
lemma runRec_voiced_step (cfg : Config) (st : RecState) (d : Chunk)
    (rest : List Chunk) (hc : st.is_calibrating = false)
    (hv : isVoiced d st.silence_threshold = true)
    (htop : ¬ maxTotalChunks cfg ≤ (st.total_chunks : ℤ))
    (hms : ¬ maxSilenceChunks cfg ≤ 0) :
    runRec cfg st (d :: rest) =
      runRec cfg
        ⟨st.frames ++ [d], 0, st.total_chunks + 1, true, 0,
          st.calibration_samples, false, st.silence_threshold⟩ rest := by
  obtain ⟨fr, sc, tc, hsp, wc, cal, ic, th⟩ := st
  simp only at hc hv htop
  subst hc
  simp [runRec, htop, procChunk, hv, hms]

/-- Running a silent stream from a listening state in which speech has
never been observed: after exactly enough silent chunks to bring
`waiting_for_speech_chunks` up to the waiting limit, the loop stops with
`timedOutNoSpeech`, having appended exactly those chunks. -/
lemma run_noSpeech (cfg : Config) (chunks : List Chunk) :
    ∀ (st : RecState) (rest : List Chunk),
      st.is_calibrating = false →
      st.has_spoken = false →
      (∀ c ∈ chunks, isVoiced c st.silence_threshold = false) →
      (st.waiting_for_speech_chunks : ℤ) + chunks.length = maxWaitingChunks →
      (st.total_chunks : ℤ) + chunks.length ≤ maxTotalChunks cfg →
      chunks ≠ [] →
      runRec cfg st (chunks ++ rest) =
        some (RecOutcome.timedOutNoSpeech, st.frames ++ chunks) := by
  induction chunks with
  | nil => intro st rest _ _ _ _ _ hne; exact absurd rfl hne
  | cons c cs ih =>
    intro st rest hc hs hv hw ht _
    simp only [List.length_cons] at hw ht
    push_cast at hw ht
    have htop : ¬ maxTotalChunks cfg ≤ (st.total_chunks : ℤ) := by omega
    have hvc : isVoiced c st.silence_threshold = false := hv c (by simp)
    rw [List.cons_append,
      runRec_silent_noSpeech_step cfg st c (cs ++ rest) hc hs hvc htop]
    rcases cs with _ | ⟨c2, cs'⟩
    · rw [if_pos (by simpa using hw.ge)]
    · rw [if_neg (by simp at hw ⊢; omega)]
      rw [ih _ rest rfl rfl (fun x hx => by
            simpa using hv x (List.mem_cons_of_mem c hx))
          (by push_cast; simp at hw ⊢; omega)
          (by push_cast; simp at ht ⊢; omega) (by simp)]
      simp

/-- Running a silent stream from a listening state in which speech has
been observed: after exactly enough silent chunks to bring
`silence_chunks` up to the silence limit, the loop stops with
`completed`, having appended exactly those chunks. -/
lemma run_completed (cfg : Config) (chunks : List Chunk) :
    ∀ (st : RecState) (rest : List Chunk),
      st.is_calibrating = false →
      st.has_spoken = true →
      (∀ c ∈ chunks, isVoiced c st.silence_threshold = false) →
      (st.silence_chunks : ℤ) + chunks.length = maxSilenceChunks cfg →
      (st.total_chunks : ℤ) + chunks.length ≤ maxTotalChunks cfg →
      chunks ≠ [] →
      runRec cfg st (chunks ++ rest) =
        some (RecOutcome.completed, st.frames ++ chunks) := by
  induction chunks with
  | nil => intro st rest _ _ _ _ _ hne; exact absurd rfl hne
  | cons c cs ih =>
    intro st rest hc hs hv hw ht _
    simp only [List.length_cons] at hw ht
    push_cast at hw ht
    have htop : ¬ maxTotalChunks cfg ≤ (st.total_chunks : ℤ) := by omega
    have hvc : isVoiced c st.silence_threshold = false := hv c (by simp)
    rw [List.cons_append,
      runRec_silent_afterSpeech_step cfg st c (cs ++ rest) hc hs hvc htop]
    rcases cs with _ | ⟨c2, cs'⟩
    · rw [if_pos (by simpa using hw.ge)]
    · rw [if_neg (by simp at hw ⊢; omega)]
      rw [ih _ rest rfl rfl (fun x hx => by
            simpa using hv x (List.mem_cons_of_mem c hx))
          (by push_cast; simp at hw ⊢; omega)
          (by push_cast; simp at ht ⊢; omega) (by simp)]
      simp

/-- Running a voiced stream from a listening state: no break ever fires,
so the loop stops with `timedOutMaxDuration` exactly when
`total_chunks` reaches the duration limit, having appended every chunk. -/
lemma run_voicedMax (cfg : Config) (chunks : List Chunk) :
    ∀ (st : RecState) (rest : List Chunk),
      st.is_calibrating = false →
      (∀ c ∈ chunks, isVoiced c st.silence_threshold = true) →
      (st.total_chunks : ℤ) + chunks.length = maxTotalChunks cfg →
      ¬ maxSilenceChunks cfg ≤ 0 →
      runRec cfg st (chunks ++ rest) =
        some (RecOutcome.timedOutMaxDuration, st.frames ++ chunks) := by
  induction chunks with
  | nil =>
    intro st rest _ _ ht _
    simp only [List.length_nil] at ht
    rw [List.nil_append, runRec_stop cfg st rest (by omega)]
    simp
  | cons c cs ih =>
    intro st rest hc hv ht hms
    simp only [List.length_cons] at ht
    push_cast at ht
    have htop : ¬ maxTotalChunks cfg ≤ (st.total_chunks : ℤ) := by omega
    have hvc : isVoiced c st.silence_threshold = true := hv c (by simp)
    rw [List.cons_append, runRec_voiced_step cfg st c (cs ++ rest) hc hvc htop hms]
    rw [ih _ rest rfl (fun x hx => by
          simpa using hv x (List.mem_cons_of_mem c hx))
        (by push_cast; omega) hms]
    simp

/-- As long as the duration limit allows at least 8 chunks, the run on any
stream of at least 8 chunks first performs the whole calibration phase —
3 skipped chunks, 5 measured chunks, threshold derived on chunk 8 — and
continues from `postCalibState` on the remaining input. -/
lemma runRec_calibration (cfg : Config) (c1 c2 c3 c4 c5 c6 c7 c8 : Chunk)
    (rest : List Chunk) (h : 8 ≤ maxTotalChunks cfg) :
    runRec cfg (initState cfg) (c1 :: c2 :: c3 :: c4 :: c5 :: c6 :: c7 :: c8 :: rest) =
      runRec cfg
        (postCalibState cfg
          [amplitude c4, amplitude c5, amplitude c6, amplitude c7, amplitude c8])
        rest := by
  have h0 : ¬ maxTotalChunks cfg ≤ (0 : ℤ) := by omega
  have h1 : ¬ maxTotalChunks cfg ≤ (1 : ℤ) := by omega
  have h2 : ¬ maxTotalChunks cfg ≤ (2 : ℤ) := by omega
  have h3 : ¬ maxTotalChunks cfg ≤ (3 : ℤ) := by omega
  have h4 : ¬ maxTotalChunks cfg ≤ (4 : ℤ) := by omega
  have h5 : ¬ maxTotalChunks cfg ≤ (5 : ℤ) := by omega
  have h6 : ¬ maxTotalChunks cfg ≤ (6 : ℤ) := by omega
  have h7 : ¬ maxTotalChunks cfg ≤ (7 : ℤ) := by omega
  simp [runRec, procChunk, initState, postCalibState, calibratedThreshold,
    calibration_chunks, h0, h1, h2, h3, h4, h5, h6, h7]

/-- Once calibration is over, every iteration of the loop body appends the
chunk just read to `frames`, and the session never re-enters calibration. -/
lemma procChunk_listening (cfg : Config) (st : RecState) (d : Chunk)
    (hc : st.is_calibrating = false) :
    (procChunk cfg st d).1.frames = st.frames ++ [d] ∧
      (procChunk cfg st d).1.is_calibrating = false := by
  obtain ⟨fr, sc, tc, hsp, wc, cal, ic, th⟩ := st
  simp only at hc
  subst hc
  by_cases hv : isVoiced d th <;>
    simp only [procChunk, Bool.false_eq_true, if_false, hv, if_true] <;>
    split_ifs <;> simp

/-- During calibration the loop body never touches `frames`, and keeps the
invariant that the number of measured samples is the number of processed
chunks minus the 3 skipped ones.  No break can fire, and calibration stays
open as long as fewer than 8 chunks have been processed. -/
lemma procChunk_calibrating (cfg : Config) (st : RecState) (d : Chunk)
    (hc : st.is_calibrating = true)
    (hinv : st.calibration_samples.length = st.total_chunks - 3)
    (hlt : st.total_chunks + 1 < calibration_chunks) :
    ∃ st', procChunk cfg st d = (st', none) ∧ st'.is_calibrating = true ∧
      st'.frames = st.frames ∧
      st'.calibration_samples.length = st'.total_chunks - 3 ∧
      st'.total_chunks = st.total_chunks + 1 := by
  obtain ⟨fr, sc, tc, hsp, wc, cal, ic, th⟩ := st
  simp only at hc hinv hlt
  subst hc
  rw [calibration_chunks] at hlt
  by_cases h3 : tc + 1 ≤ 3
  · refine ⟨⟨fr, sc, tc + 1, hsp, wc, cal, true, th⟩, ?_, rfl, rfl, ?_, rfl⟩
    · simp [procChunk, h3]
    · simp only
      omega
  · have hnc : ¬ calibration_chunks - 3 ≤ cal.length + 1 := by
      rw [calibration_chunks]; omega
    refine ⟨⟨fr, sc, tc + 1, hsp, wc, cal ++ [amplitude d], true, th⟩, ?_, rfl, rfl, ?_, rfl⟩
    · simp [procChunk, h3, calibration_chunks]
      omega
    · simp only [List.length_append, List.length_cons, List.length_nil]
      omega

/-- Whatever the run returns after calibration, the frames it hands back
are the starting frames followed by some prefix of the remaining input. -/
lemma run_listening_frames (cfg : Config) (stream : List Chunk) :
    ∀ (st : RecState) (out : RecOutcome) (fr : List Chunk),
      st.is_calibrating = false →
      runRec cfg st stream = some (out, fr) →
      ∃ k, fr = st.frames ++ stream.take k := by
  induction stream with
  | nil =>
    intro st out fr _ h
    simp only [runRec] at h
    split at h
    · simp only [Option.some.injEq, Prod.mk.injEq] at h
      exact ⟨0, by simp [h.2.symm]⟩
    · cases h
  | cons d rest ih =>
    intro st out fr hc h
    simp only [runRec] at h
    split at h
    · simp only [Option.some.injEq, Prod.mk.injEq] at h
      exact ⟨0, by simp [h.2.symm]⟩
    · rcases hp : procChunk cfg st d with ⟨st', o⟩
      rw [hp] at h
      have hfr := (procChunk_listening cfg st d hc).1
      have hcal := (procChunk_listening cfg st d hc).2
      rw [hp] at hfr hcal
      simp only at hfr hcal
      cases o with
      | some out' =>
        simp only [Option.some.injEq, Prod.mk.injEq] at h
        exact ⟨1, by simp [h.2.symm, hfr]⟩
      | none =>
        obtain ⟨k, hk⟩ := ih st' out fr hcal h
        exact ⟨k + 1, by simp [hk, hfr]⟩

/-- If the duration limit cuts the session off before calibration can
finish, the returned buffer is empty: calibration never contributes
frames. -/
lemma run_calibrating_smallTotal (cfg : Config) (hm : maxTotalChunks cfg ≤ 7) :
    ∀ (stream : List Chunk) (st : RecState) (out : RecOutcome) (fr : List Chunk),
      st.is_calibrating = true → st.frames = [] →
      st.calibration_samples.length = st.total_chunks - 3 →
      runRec cfg st stream = some (out, fr) → fr = [] := by
  intro stream
  induction stream with
  | nil =>
    intro st out fr _ hf _ h
    simp only [runRec] at h
    split at h
    · simp only [Option.some.injEq, Prod.mk.injEq] at h
      exact h.2 ▸ hf
    · cases h
  | cons d rest ih =>
    intro st out fr hc hf hinv h
    simp only [runRec] at h
    split at h
    · simp only [Option.some.injEq, Prod.mk.injEq] at h
      exact h.2 ▸ hf
    · rename_i htop
      have htc : st.total_chunks + 1 < calibration_chunks := by
        rw [calibration_chunks]; omega
      obtain ⟨st', hp, hc', hf', hinv', _⟩ := procChunk_calibrating cfg st d hc hinv htc
      rw [hp] at h
      exact ih st' out fr hc' (hf'.trans hf) hinv' h

/-- A stream shorter than the calibration phase leaves the loop blocked on
the next read (given the duration limit has not been hit). -/
lemma run_calibrating_short (cfg : Config) :
    ∀ (stream : List Chunk) (st : RecState),
      st.is_calibrating = true →
      st.calibration_samples.length = st.total_chunks - 3 →
      stream.length + st.total_chunks ≤ 7 →
      8 ≤ maxTotalChunks cfg →
      runRec cfg st stream = none := by
  intro stream
  induction stream with
  | nil =>
    intro st _ _ hlen hm
    simp only [List.length_nil, Nat.zero_add] at hlen
    simp only [runRec]
    rw [if_neg (by omega)]
  | cons d rest ih =>
    intro st hc hinv hlen hm
    simp only [List.length_cons] at hlen
    have htop : ¬ maxTotalChunks cfg ≤ (st.total_chunks : ℤ) := by omega
    have htc : st.total_chunks + 1 < calibration_chunks := by
      rw [calibration_chunks]; omega
    obtain ⟨st', hp, hc', _, hinv', htc'⟩ := procChunk_calibrating cfg st d hc hinv htc
    simp only [runRec]
    rw [if_neg htop, hp]
    exact ih st' hc' hinv' (by omega) hm

/-- All frames any run from the initial state ever returns form a prefix
of the input with its first 8 (calibration) chunks removed: only
post-calibration chunks are accepted, in order. -/
lemma run_frames_slice (cfg : Config) (stream : List Chunk) (out : RecOutcome)
    (fr : List Chunk)
    (h : runRec cfg (initState cfg) stream = some (out, fr)) :
    ∃ k, fr = (stream.drop 8).take k := by
  by_cases hm : 8 ≤ maxTotalChunks cfg
  · by_cases hl : 8 ≤ stream.length
    · rcases stream with _ | ⟨c1, _ | ⟨c2, _ | ⟨c3, _ | ⟨c4, _ | ⟨c5, _ | ⟨c6,
        _ | ⟨c7, _ | ⟨c8, tl⟩⟩⟩⟩⟩⟩⟩⟩ <;> simp only [List.length_nil,
          List.length_cons] at hl <;> try omega
      rw [runRec_calibration cfg c1 c2 c3 c4 c5 c6 c7 c8 tl hm] at h
      obtain ⟨k, hk⟩ := run_listening_frames cfg tl _ out fr (by simp [postCalibState]) h
      exact ⟨k, by simpa [postCalibState] using hk⟩
    · have hnone := run_calibrating_short cfg stream (initState cfg)
        (by simp [initState]) (by simp [initState]) (by simp [initState]; omega) hm
      rw [hnone] at h
      cases h
  · have hfr := run_calibrating_smallTotal cfg (by omega) stream (initState cfg)
      out fr (by simp [initState]) (by simp [initState]) (by simp [initState]) h
    exact ⟨0, by simp [hfr]⟩

/-- Before the 8th chunk has been processed, the session is still in the
calibration phase, whatever the chunks contained. -/
lemma procList_calib_lt (cfg : Config) (pre : List Chunk) (hl : pre.length < 8) :
    (procList cfg (initState cfg) pre).is_calibrating = true := by
  rcases pre with _ | ⟨a1, _ | ⟨a2, _ | ⟨a3, _ | ⟨a4, _ | ⟨a5, _ | ⟨a6,
    _ | ⟨a7, _ | ⟨a8, tl⟩⟩⟩⟩⟩⟩⟩⟩
  · simp [procList, procChunk, initState, calibration_chunks]
  · simp [procList, procChunk, initState, calibration_chunks]
  · simp [procList, procChunk, initState, calibration_chunks]
  · simp [procList, procChunk, initState, calibration_chunks]
  · simp [procList, procChunk, initState, calibration_chunks]
  · simp [procList, procChunk, initState, calibration_chunks]
  · simp [procList, procChunk, initState, calibration_chunks]
  · simp [procList, procChunk, initState, calibration_chunks]
  · exfalso
    simp only [List.length_cons] at hl
    omega

/-- Python's `int()` of a non-positive value is non-positive. -/
lemma pyInt_nonpos (q : ℚ) (h : q ≤ 0) : pyInt q ≤ 0 := by
  rw [pyInt]
  split
  · have : q = 0 := le_antisymm h (by assumption)
    simp [this]
  · exact Int.ceil_le.mpr (by exact_mod_cast h)

/-- A non-positive configured duration makes the chunk budget non-positive. -/
lemma maxTotalChunks_nonpos (cfg : Config) (h : cfg.max_duration_seconds ≤ 0) :
    maxTotalChunks cfg ≤ 0 := by
  apply pyInt_nonpos
  apply div_nonpos_of_nonpos_of_nonneg
  · exact mul_nonpos_of_nonpos_of_nonneg h (by positivity)
  · positivity

/-- Full no-speech scenario: any stream whose 78 (or more)
post-calibration chunks are all below the calibrated threshold stops with
`timedOutNoSpeech` after exactly 78 accepted chunks — 78 being
`int(5.0 * 16000 / 1024)`, the hard-coded waiting limit. -/
lemma run_noSpeech_scenario (cfg : Config) (c1 c2 c3 c4 c5 c6 c7 c8 : Chunk)
    (tail : List Chunk) (hm : 86 ≤ maxTotalChunks cfg)
    (hsil : ∀ c ∈ tail,
      isVoiced c (calibratedThreshold cfg
        [amplitude c4, amplitude c5, amplitude c6, amplitude c7, amplitude c8]) = false)
    (hl : 78 ≤ tail.length) :
    runRec cfg (initState cfg) (c1 :: c2 :: c3 :: c4 :: c5 :: c6 :: c7 :: c8 :: tail) =
      some (RecOutcome.timedOutNoSpeech, tail.take 78) := by
  rw [runRec_calibration cfg c1 c2 c3 c4 c5 c6 c7 c8 tail (by omega)]
  nth_rewrite 1 [(List.take_append_drop 78 tail).symm]
  rw [run_noSpeech cfg (tail.take 78) _ (tail.drop 78)
    (by simp [postCalibState]) (by simp [postCalibState])
    (fun c hc => by
      simpa [postCalibState] using hsil c (List.take_subset 78 tail hc))
    (by rw [maxWaitingChunks_eq]; simp [postCalibState, List.length_take]; omega)
    (by simp [postCalibState, List.length_take]; omega)
    (by
      apply List.ne_nil_of_length_pos
      simp [List.length_take]; omega)]
  simp [postCalibState]

/-- Full max-duration scenario: a stream whose post-calibration chunks are
all above the calibrated threshold stops with `timedOutMaxDuration` as
soon as `total_chunks` reaches `int(max_duration_seconds * 16000 / 1024)`,
having accepted all chunks after the 8 calibration ones. -/
lemma run_maxDuration_scenario (cfg : Config) (c1 c2 c3 c4 c5 c6 c7 c8 : Chunk)
    (tail : List Chunk) (n : ℕ)
    (hm : 8 ≤ maxTotalChunks cfg) (hms : 1 ≤ maxSilenceChunks cfg)
    (hvoi : ∀ c ∈ tail,
      isVoiced c (calibratedThreshold cfg
        [amplitude c4, amplitude c5, amplitude c6, amplitude c7, amplitude c8]) = true)
    (hn : (8 : ℤ) + (n : ℤ) = maxTotalChunks cfg) (hl : n ≤ tail.length) :
    runRec cfg (initState cfg) (c1 :: c2 :: c3 :: c4 :: c5 :: c6 :: c7 :: c8 :: tail) =
      some (RecOutcome.timedOutMaxDuration, tail.take n) := by
  rw [runRec_calibration cfg c1 c2 c3 c4 c5 c6 c7 c8 tail (by omega)]
  nth_rewrite 1 [(List.take_append_drop n tail).symm]
  rw [run_voicedMax cfg (tail.take n) _ (tail.drop n)
    (by simp [postCalibState])
    (fun c hc => by
      simpa [postCalibState] using hvoi c (List.take_subset n tail hc))
    (by simp [postCalibState, List.length_take]; omega)
    (by omega)]
  simp [postCalibState]

/-- If the loop would still be running when a read raises, the exception
aborts the whole recording: the run over the fallible stream yields the
`error` result, not any recorded buffer. -/
lemma runRecE_error (cfg : Config) :
    ∀ (pre : List Chunk) (st : RecState) (rest : List ReadResult),
      runRec cfg st pre = none →
      runRecE cfg st (pre.map ReadResult.chunk ++ ReadResult.err :: rest) =
        some (Except.error ()) := by
  intro pre
  induction pre with
  | nil =>
    intro st rest h
    simp only [runRec] at h
    split at h
    · cases h
    · rename_i htop
      simp only [List.map_nil, List.nil_append, runRecE]
      rw [if_neg htop]
  | cons d pre' ih =>
    intro st rest h
    simp only [runRec] at h
    split at h
    · cases h
    · rename_i htop
      rcases hp : procChunk cfg st d with ⟨st', o⟩
      rw [hp] at h
      cases o with
      | some out => simp at h
      | none =>
        simp only [List.map_cons, List.cons_append, runRecE]
        rw [if_neg htop, hp]
        exact ih st' rest h

/-- The concrete `Completed` scenario at the default configuration:
8 calibration chunks at amplitude 50 (threshold stays 800), one voiced
chunk at amplitude 2000, then constant amplitude-10 silence.  The loop
breaks on the 46th silent chunk — `max_silence_chunks =
int(3.0 * 16000 / 1024) = 46` — so of the 47 offered silent chunks only
46 are read, for an accepted buffer of 47 chunks. -/
lemma run_completed_scenario_default :
    runRec defaultConfig (initState defaultConfig)
      (List.replicate 8 (List.replicate 1024 (50 : ℤ)) ++
        List.replicate 1024 (2000 : ℤ) ::
          List.replicate 47 (List.replicate 1024 (10 : ℤ))) =
      some (RecOutcome.completed,
        List.replicate 1024 (2000 : ℤ) ::
          List.replicate 46 (List.replicate 1024 (10 : ℤ))) := by
  have ha50 : amplitude (List.replicate 1024 (50 : ℤ)) = 50 := by
    rw [amplitude_replicate 1024 (by norm_num) 50]; norm_num
  have ha2000 : amplitude (List.replicate 1024 (2000 : ℤ)) = 2000 := by
    rw [amplitude_replicate 1024 (by norm_num) 2000]; norm_num
  have ha10 : amplitude (List.replicate 1024 (10 : ℤ)) = 10 := by
    rw [amplitude_replicate 1024 (by norm_num) 10]; norm_num
  have hthr : calibratedThreshold defaultConfig [50, 50, 50, 50, 50] = 800 := by
    norm_num [calibratedThreshold, defaultConfig, DEFAULT_SILENCE_THRESHOLD]
  rw [show List.replicate 8 (List.replicate 1024 (50 : ℤ)) ++
        List.replicate 1024 (2000 : ℤ) ::
          List.replicate 47 (List.replicate 1024 (10 : ℤ)) =
      List.replicate 1024 (50 : ℤ) :: List.replicate 1024 (50 : ℤ) ::
        List.replicate 1024 (50 : ℤ) :: List.replicate 1024 (50 : ℤ) ::
        List.replicate 1024 (50 : ℤ) :: List.replicate 1024 (50 : ℤ) ::
        List.replicate 1024 (50 : ℤ) :: List.replicate 1024 (50 : ℤ) ::
        (List.replicate 1024 (2000 : ℤ) ::
          List.replicate 47 (List.replicate 1024 (10 : ℤ))) from rfl]
  rw [runRec_calibration defaultConfig _ _ _ _ _ _ _ _ _
    (by rw [maxTotalChunks_default]; norm_num)]
  rw [show postCalibState defaultConfig
      [amplitude (List.replicate 1024 (50 : ℤ)), amplitude (List.replicate 1024 (50 : ℤ)),
       amplitude (List.replicate 1024 (50 : ℤ)), amplitude (List.replicate 1024 (50 : ℤ)),
       amplitude (List.replicate 1024 (50 : ℤ))] =
      ⟨[], 0, 8, false, 0, [50, 50, 50, 50, 50], false, 800⟩ from by
    simp only [postCalibState, ha50, hthr]]
  have hvoiced : isVoiced (List.replicate 1024 (2000 : ℤ)) (800 : ℚ) = true := by
    simp only [isVoiced, ha2000]
    norm_num
  have hsilent : isVoiced (List.replicate 1024 (10 : ℤ)) (800 : ℚ) = false := by
    simp only [isVoiced, ha10]
    norm_num
  rw [runRec_voiced_step defaultConfig ⟨[], 0, 8, false, 0, [50, 50, 50, 50, 50], false, 800⟩
    (List.replicate 1024 (2000 : ℤ)) (List.replicate 47 (List.replicate 1024 (10 : ℤ)))
    rfl hvoiced
    (by rw [maxTotalChunks_default]; norm_num)
    (by rw [maxSilenceChunks_default]; norm_num)]
  exact run_completed defaultConfig (List.replicate 46 (List.replicate 1024 (10 : ℤ)))
    ⟨[List.replicate 1024 (2000 : ℤ)], 0, 9, true, 0, [50, 50, 50, 50, 50], false, 800⟩
    [List.replicate 1024 (10 : ℤ)] rfl rfl
    (fun c hc => by rw [List.eq_of_mem_replicate hc]; exact hsilent)
    (by rw [maxSilenceChunks_default]; simp only [List.length_replicate]; norm_num)
    (by rw [maxTotalChunks_default]; simp only [List.length_replicate]; norm_num)
    (List.ne_nil_of_length_pos (by simp only [List.length_replicate]; norm_num))

/-- The amplitude of a one-sample chunk is that sample's absolute value. -/
lemma amplitude_single (v : ℤ) : amplitude [v] = ((v.natAbs : ℕ) : ℚ) := by
  simp [amplitude]

/-- Calibrating on pure digital silence keeps the configured base
threshold (for any base between the clamp bounds). -/
lemma calibratedThreshold_zeroNoise (cfg : Config) (h1 : 0 ≤ cfg.silence_threshold)
    (h2 : cfg.silence_threshold ≤ 1200) :
    calibratedThreshold cfg
      [amplitude ([0] : Chunk), amplitude [0], amplitude [0], amplitude [0], amplitude [0]] =
      cfg.silence_threshold := by
  simp only [amplitude_single, Int.natAbs_zero, Nat.cast_zero, calibratedThreshold]
  norm_num
  rw [max_eq_right h1, min_eq_left h2]

/-- A zero chunk is never voiced against a non-negative threshold. -/
lemma isVoiced_zero (t : ℚ) (h : 0 ≤ t) : isVoiced ([0] : Chunk) t = false := by
  simp only [isVoiced, amplitude_single, Int.natAbs_zero, Nat.cast_zero]
  exact decide_eq_false (not_lt.mpr h)

/-- A constant-2000 one-sample chunk is voiced against any threshold below 2000. -/
lemma isVoiced_2000 (t : ℚ) (h : t < 2000) : isVoiced ([2000] : Chunk) t = true := by
  simp only [isVoiced, amplitude_single]
  exact decide_eq_true (by norm_num; exact h)

/-- C1: for every calibration run that completes (8 chunks processed),
the derived silence threshold equals
`min(max(2.0 * average(measured mean amplitudes), configuredBaseThreshold), 1200)`
— the measured chunks being chunks 4 through 8 — and the threshold never
changes again afterwards (no post-calibration loop iteration touches it,
and calibration is never re-entered). -/
theorem claim_threshold_formula (cfg : Config) :
    (∀ (chunks : List Chunk), chunks.length = 8 →
      (procList cfg (initState cfg) chunks).silence_threshold =
        min (max (((chunks.drop 3).map amplitude).sum / 5 * 2) cfg.silence_threshold) 1200 ∧
      (procList cfg (initState cfg) chunks).is_calibrating = false) ∧
    (∀ (st : RecState) (d : Chunk), st.is_calibrating = false →
      (procChunk cfg st d).1.silence_threshold = st.silence_threshold ∧
      (procChunk cfg st d).1.is_calibrating = false) := by
  constructor
  · intro chunks hl
    rcases chunks with _ | ⟨c1, _ | ⟨c2, _ | ⟨c3, _ | ⟨c4, _ | ⟨c5, _ | ⟨c6,
      _ | ⟨c7, _ | ⟨c8, tl⟩⟩⟩⟩⟩⟩⟩⟩ <;>
      simp only [List.length_nil, List.length_cons] at hl <;> try omega
    have htl : tl = [] := List.eq_nil_of_length_eq_zero (by omega)
    subst htl
    rw [procList_calib8]
    constructor
    · simp [postCalibState, calibratedThreshold]
    · rfl
  · intro st d hc
    obtain ⟨fr, sc, tc, hsp, wc, cal, ic, th⟩ := st
    simp only at hc
    subst hc
    by_cases hv : isVoiced d th <;>
      simp only [procChunk, Bool.false_eq_true, if_false, hv, if_true] <;>
      split_ifs <;> simp

/-- Witness for C1 at a concrete run: 8 zero chunks under the default
configuration. -/
theorem claim_threshold_formula_witness :
    (List.replicate 8 ([0] : Chunk)).length = 8 ∧
    (procList defaultConfig (initState defaultConfig)
        (List.replicate 8 ([0] : Chunk))).silence_threshold =
      min (max ((((List.replicate 8 ([0] : Chunk)).drop 3).map amplitude).sum / 5 * 2)
        defaultConfig.silence_threshold) 1200 :=
  ⟨by simp, ((claim_threshold_formula defaultConfig).1 _ (by simp)).1⟩

/-- C5: calibration consumes exactly `max(calibration_chunks, 3) = 8`
chunks — after any 8 chunks the session is listening, after any fewer it
is still calibrating — irrespective of the chunks' content. -/
theorem claim_calibration_consumes :
    max calibration_chunks 3 = 8 ∧
    ∀ (cfg : Config) (chunks pre : List Chunk), chunks.length = 8 → pre.length < 8 →
      (procList cfg (initState cfg) chunks).is_calibrating = false ∧
      (procList cfg (initState cfg) pre).is_calibrating = true := by
  refine ⟨rfl, ?_⟩
  intro cfg chunks pre hl hp
  refine ⟨?_, procList_calib_lt cfg pre hp⟩
  rcases chunks with _ | ⟨c1, _ | ⟨c2, _ | ⟨c3, _ | ⟨c4, _ | ⟨c5, _ | ⟨c6,
    _ | ⟨c7, _ | ⟨c8, tl⟩⟩⟩⟩⟩⟩⟩⟩ <;>
    simp only [List.length_nil, List.length_cons] at hl <;> try omega
  have htl : tl = [] := List.eq_nil_of_length_eq_zero (by omega)
  subst htl
  rw [procList_calib8]
  rfl

/-- Witness for C5 at concrete runs of 8 and 7 zero chunks. -/
theorem claim_calibration_consumes_witness :
    (procList defaultConfig (initState defaultConfig)
        (List.replicate 8 ([0] : Chunk))).is_calibrating = false ∧
    (procList defaultConfig (initState defaultConfig)
        (List.replicate 7 ([0] : Chunk))).is_calibrating = true :=
  claim_calibration_consumes.2 defaultConfig _ _ (by simp) (by simp)

/-- C6: whatever buffer a run from the initial state returns, it is a
prefix of the input stream with its first 8 chunks removed: chunks are
accepted only after calibration completes, and none of the 8 calibration
chunks ever appears in the output buffer. -/
theorem claim_frames_post_calibration (cfg : Config) (stream : List Chunk)
    (out : RecOutcome) (fr : List Chunk)
    (h : runRec cfg (initState cfg) stream = some (out, fr)) :
    ∃ k, fr = (stream.drop 8).take k :=
  run_frames_slice cfg stream out fr h

/-- C8: on any live loop iteration that reads a silent chunk, the
no-speech waiting break fires first (yielding `timedOutNoSpeech`) and the
speech-then-silence break second (yielding `completed`), both regardless
of whether the max-duration cutoff is also reached by this chunk — the
`while`-condition check only runs after the in-loop breaks. -/
theorem claim_check_priority (cfg : Config) (st : RecState) (d : Chunk)
    (rest : List Chunk) (hc : st.is_calibrating = false)
    (htop : ¬ maxTotalChunks cfg ≤ (st.total_chunks : ℤ))
    (hv : isVoiced d st.silence_threshold = false) :
    (st.has_spoken = false →
      maxWaitingChunks ≤ (st.waiting_for_speech_chunks : ℤ) + 1 →
      runRec cfg st (d :: rest) =
        some (RecOutcome.timedOutNoSpeech, st.frames ++ [d])) ∧
    (st.has_spoken = true →
      maxSilenceChunks cfg ≤ (st.silence_chunks : ℤ) + 1 →
      runRec cfg st (d :: rest) =
        some (RecOutcome.completed, st.frames ++ [d])) := by
  constructor
  · intro hs hw
    rw [runRec_silent_noSpeech_step cfg st d rest hc hs hv htop, if_pos hw]
  · intro hs hw
    rw [runRec_silent_afterSpeech_step cfg st d rest hc hs hv htop, if_pos hw]

/-- Witness for C8 at a tie: `max_duration_seconds = 624/125 = 4.992 s`
gives `max_total_chunks = 78`; on the 78th chunk both the waiting limit
and the duration cap are reached, and the outcome is `timedOutNoSpeech`. -/
theorem claim_check_priority_witness :
    maxTotalChunks ⟨624 / 125, 800, 3⟩ = 78 ∧
    maxTotalChunks ⟨624 / 125, 800, 3⟩ ≤ (77 : ℤ) + 1 ∧
    runRec ⟨624 / 125, 800, 3⟩ ⟨[], 77, 77, false, 77, [], false, 800⟩ [[0]] =
      some (RecOutcome.timedOutNoSpeech, [[0]]) := by
  have hmt : maxTotalChunks ⟨624 / 125, 800, 3⟩ = 78 := by
    norm_num [maxTotalChunks, pyInt, RATE, CHUNK]
  refine ⟨hmt, by rw [hmt]; norm_num, ?_⟩
  have h := (claim_check_priority ⟨624 / 125, 800, 3⟩
    ⟨[], 77, 77, false, 77, [], false, 800⟩ [0] [] rfl
    (by rw [hmt]; norm_num)
    (isVoiced_zero 800 (by norm_num))).1 rfl
    (by rw [maxWaitingChunks_eq]; norm_num)
  simpa using h

/-- C9: the classifier is the pure comparison
`mean(|sample|) > threshold`, and inside the loop the voicing decision
for a chunk depends on nothing but the chunk and the current threshold:
`has_spoken` and `silence_chunks` are updated through `isVoiced` alone. -/
theorem claim_classifier_pure (cfg : Config) :
    (∀ (c : Chunk) (t : ℚ),
      isVoiced c t =
        decide (t < (((c.map fun s => s.natAbs).sum : ℕ) : ℚ) / (c.length : ℚ))) ∧
    (∀ (st : RecState) (d : Chunk), st.is_calibrating = false →
      (procChunk cfg st d).1.has_spoken =
        (st.has_spoken || isVoiced d st.silence_threshold) ∧
      (procChunk cfg st d).1.silence_chunks =
        if isVoiced d st.silence_threshold then 0 else st.silence_chunks + 1) := by
  constructor
  · intro c t
    rfl
  · intro st d hc
    obtain ⟨fr, sc, tc, hsp, wc, cal, ic, th⟩ := st
    simp only at hc
    subst hc
    by_cases hv : isVoiced d th <;>
      simp only [procChunk, Bool.false_eq_true, if_false, hv, if_true] <;>
      split_ifs <;> simp [hv]

/-- Witness for C9 at concrete chunks and a concrete listening state. -/
theorem claim_classifier_pure_witness :
    isVoiced [2000] 800 =
      decide ((800 : ℚ) <
        (((([2000] : Chunk).map fun s => s.natAbs).sum : ℕ) : ℚ) /
          (([2000] : Chunk).length : ℚ)) ∧
    (procChunk defaultConfig ⟨[], 0, 8, false, 0, [], false, 800⟩ [0]).1.has_spoken =
      (false || isVoiced [0] 800) :=
  ⟨(claim_classifier_pure defaultConfig).1 [2000] 800,
   ((claim_classifier_pure defaultConfig).2 ⟨[], 0, 8, false, 0, [], false, 800⟩ [0] rfl).1⟩

/-- Witness for C6 at a concrete terminating run: 86 zero chunks under
the default configuration stop with `timedOutNoSpeech` and a buffer of
78 chunks, which is a prefix of the stream minus its first 8 chunks. -/
theorem claim_frames_post_calibration_witness :
    ∃ k, List.replicate 78 ([0] : Chunk) =
      ((List.replicate 86 ([0] : Chunk)).drop 8).take k := by
  have hsil : ∀ c ∈ List.replicate 78 ([0] : Chunk),
      isVoiced c (calibratedThreshold defaultConfig
        [amplitude ([0] : Chunk), amplitude [0], amplitude [0],
         amplitude [0], amplitude [0]]) = false := by
    intro c hc
    rw [List.eq_of_mem_replicate hc,
      calibratedThreshold_zeroNoise defaultConfig
        (by norm_num [defaultConfig, DEFAULT_SILENCE_THRESHOLD])
        (by norm_num [defaultConfig, DEFAULT_SILENCE_THRESHOLD])]
    exact isVoiced_zero _ (by norm_num [defaultConfig, DEFAULT_SILENCE_THRESHOLD])
  have hrun : runRec defaultConfig (initState defaultConfig)
      (List.replicate 86 ([0] : Chunk)) =
      some (RecOutcome.timedOutNoSpeech, List.replicate 78 ([0] : Chunk)) := by
    rw [show List.replicate 86 ([0] : Chunk) =
      [0] :: [0] :: [0] :: [0] :: [0] :: [0] :: [0] :: [0] ::
        List.replicate 78 ([0] : Chunk) from rfl]
    rw [run_noSpeech_scenario defaultConfig [0] [0] [0] [0] [0] [0] [0] [0]
      (List.replicate 78 ([0] : Chunk))
      (by rw [maxTotalChunks_default]; norm_num) hsil
      (by simp only [List.length_replicate]; norm_num)]
    rw [List.take_replicate]
    norm_num
  exact claim_frames_post_calibration defaultConfig _ _ _ hrun

/-- C2 (amended): in the concrete default-configuration scenario the
silence-chunk limit is `int(3.0 * 16000 / 1024) = 46` (truncation, not
ceiling), so after 8 calibration chunks of amplitude 50 (threshold 800)
and one voiced chunk of amplitude 2000, the loop breaks on the 46th
amplitude-10 chunk: `Completed` with an accepted buffer of exactly
47 chunks = 48128 samples (the 47th offered silent chunk is never read). -/
theorem claim_completed_scenario :
    maxSilenceChunks defaultConfig = 46 ∧
    runRec defaultConfig (initState defaultConfig)
        (List.replicate 8 (List.replicate 1024 (50 : ℤ)) ++
          List.replicate 1024 (2000 : ℤ) ::
            List.replicate 47 (List.replicate 1024 (10 : ℤ))) =
      some (RecOutcome.completed,
        List.replicate 1024 (2000 : ℤ) ::
          List.replicate 46 (List.replicate 1024 (10 : ℤ))) ∧
    (List.replicate 1024 (2000 : ℤ) ::
        List.replicate 46 (List.replicate 1024 (10 : ℤ))).length = 47 ∧
    ((List.replicate 1024 (2000 : ℤ) ::
        List.replicate 46 (List.replicate 1024 (10 : ℤ))).map List.length).sum = 48128 := by
  refine ⟨maxSilenceChunks_default, run_completed_scenario_default,
    by simp only [List.length_cons, List.length_replicate], ?_⟩
  simp only [List.map_cons, List.map_replicate, List.length_replicate,
    List.sum_cons, List.sum_replicate, smul_eq_mul]

/-- Counterexample to C2 as stated: at the claim's own input the code
accepts 47 chunks, not 48, and the silence-chunk limit is 46, not
`ceil(3.0 * 16000 / 1024) = 47`. -/
theorem claim_completed_scenario_counterexample :
    maxSilenceChunks defaultConfig ≠ 47 ∧
    (runRec defaultConfig (initState defaultConfig)
        (List.replicate 8 (List.replicate 1024 (50 : ℤ)) ++
          List.replicate 1024 (2000 : ℤ) ::
            List.replicate 47 (List.replicate 1024 (10 : ℤ)))).map
        (fun p => (p.1, p.2.length)) =
      some (RecOutcome.completed, 47) ∧
    (runRec defaultConfig (initState defaultConfig)
        (List.replicate 8 (List.replicate 1024 (50 : ℤ)) ++
          List.replicate 1024 (2000 : ℤ) ::
            List.replicate 47 (List.replicate 1024 (10 : ℤ)))).map
        (fun p => (p.1, p.2.length)) ≠
      some (RecOutcome.completed, 48) := by
  refine ⟨by rw [maxSilenceChunks_default]; norm_num, ?_, ?_⟩ <;>
    rw [run_completed_scenario_default] <;>
    simp only [Option.map_some', List.length_cons, List.length_replicate, ne_eq,
      Option.some.injEq, Prod.mk.injEq] <;>
    norm_num

/-- C3 (amended): with no voiced chunk ever, the session times out after
exactly `int(5.0 * 16000 / 1024) = 78` post-calibration silent chunks
(truncation, not the ceiling 79), with exactly those 78 chunks accepted. -/
theorem claim_noSpeech_timeout (cfg : Config) (c1 c2 c3 c4 c5 c6 c7 c8 : Chunk)
    (tail : List Chunk) (hm : 86 ≤ maxTotalChunks cfg)
    (hsil : ∀ c ∈ tail,
      isVoiced c (calibratedThreshold cfg
        [amplitude c4, amplitude c5, amplitude c6, amplitude c7, amplitude c8]) = false)
    (hl : 78 ≤ tail.length) :
    maxWaitingChunks = 78 ∧
    runRec cfg (initState cfg)
        (c1 :: c2 :: c3 :: c4 :: c5 :: c6 :: c7 :: c8 :: tail) =
      some (RecOutcome.timedOutNoSpeech, tail.take 78) ∧
    (tail.take 78).length = 78 :=
  ⟨maxWaitingChunks_eq,
   run_noSpeech_scenario cfg c1 c2 c3 c4 c5 c6 c7 c8 tail hm hsil hl,
   by rw [List.length_take]; omega⟩

/-- Witness for C3 at a concrete all-silent stream of 88 zero chunks. -/
theorem claim_noSpeech_timeout_witness :
    runRec defaultConfig (initState defaultConfig)
        ([0] :: [0] :: [0] :: [0] :: [0] :: [0] :: [0] :: [0] ::
          List.replicate 80 ([0] : Chunk)) =
      some (RecOutcome.timedOutNoSpeech, (List.replicate 80 ([0] : Chunk)).take 78) ∧
    ((List.replicate 80 ([0] : Chunk)).take 78).length = 78 := by
  have h := claim_noSpeech_timeout defaultConfig [0] [0] [0] [0] [0] [0] [0] [0]
    (List.replicate 80 ([0] : Chunk))
    (by rw [maxTotalChunks_default]; norm_num)
    (fun c hc => by
      rw [List.eq_of_mem_replicate hc,
        calibratedThreshold_zeroNoise defaultConfig
          (by norm_num [defaultConfig, DEFAULT_SILENCE_THRESHOLD])
          (by norm_num [defaultConfig, DEFAULT_SILENCE_THRESHOLD])]
      exact isVoiced_zero _ (by norm_num [defaultConfig, DEFAULT_SILENCE_THRESHOLD]))
    (by simp only [List.length_replicate]; norm_num)
  exact ⟨h.2.1, h.2.2⟩

/-- Counterexample to C3 as stated: the waiting limit is 78, not
`ceil(5.0 * 16000 / 1024) = 79`; on 87 all-silent chunks the session
stops with a 78-chunk buffer, never 79. -/
theorem claim_noSpeech_timeout_counterexample :
    maxWaitingChunks ≠ 79 ∧
    (runRec defaultConfig (initState defaultConfig)
        (List.replicate 87 ([0] : Chunk))).map (fun p => (p.1, p.2.length)) =
      some (RecOutcome.timedOutNoSpeech, 78) ∧
    (runRec defaultConfig (initState defaultConfig)
        (List.replicate 87 ([0] : Chunk))).map (fun p => (p.1, p.2.length)) ≠
      some (RecOutcome.timedOutNoSpeech, 79) := by
  have hrun : runRec defaultConfig (initState defaultConfig)
      (List.replicate 87 ([0] : Chunk)) =
      some (RecOutcome.timedOutNoSpeech, (List.replicate 79 ([0] : Chunk)).take 78) := by
    rw [show List.replicate 87 ([0] : Chunk) =
      [0] :: [0] :: [0] :: [0] :: [0] :: [0] :: [0] :: [0] ::
        List.replicate 79 ([0] : Chunk) from rfl]
    exact run_noSpeech_scenario defaultConfig [0] [0] [0] [0] [0] [0] [0] [0]
      (List.replicate 79 ([0] : Chunk))
      (by rw [maxTotalChunks_default]; norm_num)
      (fun c hc => by
        rw [List.eq_of_mem_replicate hc,
          calibratedThreshold_zeroNoise defaultConfig
            (by norm_num [defaultConfig, DEFAULT_SILENCE_THRESHOLD])
            (by norm_num [defaultConfig, DEFAULT_SILENCE_THRESHOLD])]
        exact isVoiced_zero _ (by norm_num [defaultConfig, DEFAULT_SILENCE_THRESHOLD]))
      (by simp only [List.length_replicate]; norm_num)
  refine ⟨by rw [maxWaitingChunks_eq]; norm_num, ?_, ?_⟩ <;>
    rw [hrun] <;>
    simp only [Option.map_some', List.length_take, List.length_replicate, ne_eq,
      Option.some.injEq, Prod.mk.injEq] <;>
    norm_num

/-- C4 (amended): with every post-calibration chunk voiced, the session
stops with `timedOutMaxDuration` once `total_chunks` reaches
`int(max_duration_seconds * 16000 / 1024)` (truncation, not ceiling),
accepting exactly that many chunks minus the 8 calibration ones. -/
theorem claim_maxDuration_cap (cfg : Config) (c1 c2 c3 c4 c5 c6 c7 c8 : Chunk)
    (tail : List Chunk) (n : ℕ)
    (hm : 8 ≤ maxTotalChunks cfg) (hms : 1 ≤ maxSilenceChunks cfg)
    (hvoi : ∀ c ∈ tail,
      isVoiced c (calibratedThreshold cfg
        [amplitude c4, amplitude c5, amplitude c6, amplitude c7, amplitude c8]) = true)
    (hn : (8 : ℤ) + (n : ℤ) = maxTotalChunks cfg) (hl : n ≤ tail.length) :
    runRec cfg (initState cfg)
        (c1 :: c2 :: c3 :: c4 :: c5 :: c6 :: c7 :: c8 :: tail) =
      some (RecOutcome.timedOutMaxDuration, tail.take n) ∧
    (tail.take n).length = n :=
  ⟨run_maxDuration_scenario cfg c1 c2 c3 c4 c5 c6 c7 c8 tail n hm hms hvoi hn hl,
   by rw [List.length_take]; omega⟩

/-- Witness for C4: `max_duration_seconds = 10` gives
`max_total_chunks = int(156.25) = 156`; a voiced stream stops after 156
chunks with 148 accepted. -/
theorem claim_maxDuration_cap_witness :
    runRec ⟨10, 800, 3⟩ (initState ⟨10, 800, 3⟩)
        ([0] :: [0] :: [0] :: [0] :: [0] :: [0] :: [0] :: [0] ::
          List.replicate 148 ([2000] : Chunk)) =
      some (RecOutcome.timedOutMaxDuration,
        (List.replicate 148 ([2000] : Chunk)).take 148) ∧
    ((List.replicate 148 ([2000] : Chunk)).take 148).length = 148 := by
  have hmt : maxTotalChunks ⟨10, 800, 3⟩ = 156 := by
    norm_num [maxTotalChunks, pyInt, RATE, CHUNK]
  have hms : maxSilenceChunks ⟨10, 800, 3⟩ = 46 := by
    norm_num [maxSilenceChunks, pyInt, RATE, CHUNK]
  exact claim_maxDuration_cap ⟨10, 800, 3⟩ [0] [0] [0] [0] [0] [0] [0] [0]
    (List.replicate 148 ([2000] : Chunk)) 148
    (by rw [hmt]; norm_num) (by rw [hms]; norm_num)
    (fun c hc => by
      rw [List.eq_of_mem_replicate hc,
        calibratedThreshold_zeroNoise ⟨10, 800, 3⟩ (by norm_num) (by norm_num)]
      exact isVoiced_2000 _ (by norm_num))
    (by rw [hmt]; norm_num)
    (by simp only [List.length_replicate]; norm_num)

/-- Counterexample to C4 as stated: at the default configuration the cap
is `int(468.75) = 468`, not `ceil(468.75) = 469`; feeding 461 voiced
post-calibration chunks, the session stops having processed 468 chunks
(460 accepted), never reaching 469. -/
theorem claim_maxDuration_cap_counterexample :
    maxTotalChunks defaultConfig ≠ 469 ∧
    (runRec defaultConfig (initState defaultConfig)
        ([0] :: [0] :: [0] :: [0] :: [0] :: [0] :: [0] :: [0] ::
          List.replicate 461 ([2000] : Chunk))).map (fun p => (p.1, p.2.length)) =
      some (RecOutcome.timedOutMaxDuration, 460) ∧
    (runRec defaultConfig (initState defaultConfig)
        ([0] :: [0] :: [0] :: [0] :: [0] :: [0] :: [0] :: [0] ::
          List.replicate 461 ([2000] : Chunk))).map (fun p => (p.1, p.2.length)) ≠
      some (RecOutcome.timedOutMaxDuration, 461) := by
  have hrun := run_maxDuration_scenario defaultConfig [0] [0] [0] [0] [0] [0] [0] [0]
    (List.replicate 461 ([2000] : Chunk)) 460
    (by rw [maxTotalChunks_default]; norm_num)
    (by rw [maxSilenceChunks_default]; norm_num)
    (fun c hc => by
      rw [List.eq_of_mem_replicate hc,
        calibratedThreshold_zeroNoise defaultConfig
          (by norm_num [defaultConfig, DEFAULT_SILENCE_THRESHOLD])
          (by norm_num [defaultConfig, DEFAULT_SILENCE_THRESHOLD])]
      exact isVoiced_2000 _ (by norm_num [defaultConfig, DEFAULT_SILENCE_THRESHOLD]))
    (by rw [maxTotalChunks_default]; norm_num)
    (by simp only [List.length_replicate]; norm_num)
  refine ⟨by rw [maxTotalChunks_default]; norm_num, ?_, ?_⟩ <;>
    rw [hrun] <;>
    simp only [Option.map_some', List.length_take, List.length_replicate, ne_eq,
      Option.some.injEq, Prod.mk.injEq] <;>
    norm_num

/-- C7 (amended): the program performs no configuration validation at
all.  A non-positive `max_duration_seconds` is accepted: the loop body
never runs, the session reports `timedOutMaxDuration` with an empty
buffer, and the process exits 0 (success) — there is no
`InvalidConfiguration` rejection, and the audio device is opened
unconditionally before the loop.  (`CHUNK` is a hard-coded 1024 and can
never be zero.) -/
theorem claim_invalid_config (cfg : Config) (stream : List Chunk)
    (hd : cfg.max_duration_seconds ≤ 0) :
    runRec cfg (initState cfg) stream = some (RecOutcome.timedOutMaxDuration, []) ∧
    mainExitCode cfg stream = some 0 := by
  have h := maxTotalChunks_nonpos cfg hd
  have hstop := runRec_stop cfg (initState cfg) stream (by simp [initState]; omega)
  exact ⟨by simpa [initState] using hstop,
    by rw [mainExitCode, hstop]; rfl⟩

/-- Witness for C7 at `max_duration_seconds = -1` on a nonempty stream. -/
theorem claim_invalid_config_witness :
    runRec ⟨-1, 800, 3⟩ (initState ⟨-1, 800, 3⟩) [[5]] =
      some (RecOutcome.timedOutMaxDuration, []) ∧
    mainExitCode ⟨-1, 800, 3⟩ [[5]] = some 0 :=
  claim_invalid_config ⟨-1, 800, 3⟩ [[5]] (by norm_num)

/-- Counterexample to C7 as stated: `max_duration_seconds = 0` is not
rejected — the recording function runs and `__main__` exits 0. -/
theorem claim_invalid_config_counterexample :
    mainExitCode ⟨0, 800, 3⟩ [] = some 0 ∧
    runRec ⟨0, 800, 3⟩ (initState ⟨0, 800, 3⟩) [] =
      some (RecOutcome.timedOutMaxDuration, []) := by
  have h : maxTotalChunks ⟨0, 800, 3⟩ ≤ 0 := maxTotalChunks_nonpos _ le_rfl
  have hstop := runRec_stop ⟨0, 800, 3⟩ (initState ⟨0, 800, 3⟩) []
    (by simp [initState]; omega)
  exact ⟨by rw [mainExitCode, hstop]; rfl, by simpa [initState] using hstop⟩

/-- C10: if a read raises while the loop is still running, the exception
propagates: `record_audio_with_silence_detection` returns `False`, the
process exits 1, and the WAV file is never written — the partially
accepted buffer is discarded. -/
theorem claim_exception_no_wav (cfg : Config) (pre : List Chunk)
    (rest : List ReadResult)
    (hblock : runRec cfg (initState cfg) pre = none) :
    mainE cfg (pre.map ReadResult.chunk ++ ReadResult.err :: rest) =
      some (1, false) := by
  rw [mainE, runRecE_error cfg pre (initState cfg) rest hblock]
  rfl

/-- Witness for C10: a read error on the very first read. -/
theorem claim_exception_no_wav_witness :
    runRec defaultConfig (initState defaultConfig) [] = none ∧
    mainE defaultConfig [ReadResult.err] = some (1, false) := by
  have hb : runRec defaultConfig (initState defaultConfig) [] = none := by
    simp only [runRec, initState]
    rw [if_neg (by rw [maxTotalChunks_default]; norm_num)]
  exact ⟨hb, by simpa using claim_exception_no_wav defaultConfig [] [] hb⟩

end VoiceAssistant
